import Mathlib

/-!
Shallow embedding of the bon-scanner receipt ingestion pipeline
(src/app.rs, src/database.rs) and proofs about it.

Modelling conventions:
* Rust `String`/`&str` values are `List Char` (`Str` below), so that the
  string operations of the source (trim, substring containment, splitting)
  are plain structural recursions.
* Rust `f64` prices are exact rationals `ℚ`; the source never relies on
  rounding for the properties treated here.  The `float_cmp` tolerant
  comparison is modelled over `ℚ` (see `approx_eq`).
* Rust `usize` arithmetic is `Nat` with explicit wrap-around where the
  source can underflow (see `usizeSub`); release-build (wrapping)
  semantics are modelled.
* The sqlite database is a record of row lists plus AUTOINCREMENT
  counters.  Accessors that the repository calls but whose bodies are not
  part of src/database.rs (`get_products`, `get_last_category_id`,
  `get_last_product_id`, `hide_bon`, `get_processed`,
  `add_processed_entry`, and the `Product` row struct) are modelled from
  the spec's persistence-adapter contract and marked as such.
* External collaborators (terminal, tesseract OCR, the filesystem) are
  modelled as state fields: `ocr_raw_text` holds the raw text the OCR
  engine returns for the current file, `import_dir` the file names
  present in the input directory.
-/

namespace BonScanner

/-- Rust strings, modelled as lists of characters. -/
abbrev Str := List Char

/-- Rust `f64` prices, modelled as exact rationals. -/
abbrev Price := ℚ

/-- Model of the regex character class `\w` (ASCII core: letters, digits,
underscore). -/
def isWordChar (c : Char) : Bool :=
  c.isAlphanum || c = '_'

/-- Model of the regex character class `\d` (decimal digits). -/
def isDigitChar (c : Char) : Bool :=
  c.isDigit

/-- The delimiter class `[,.:-]` of the classifier (src/app.rs line 706). -/
def isDelimChar (c : Char) : Bool :=
  c = ',' || c = '.' || c = ':' || c = '-'

/-- Model of Rust `str::trim` (whitespace stripped from both ends). -/
def strTrim (s : Str) : Str :=
  ((s.dropWhile Char.isWhitespace).reverse.dropWhile Char.isWhitespace).reverse

/-- Byte length of a string in UTF-8, as Rust `str::len` computes it. -/
def utf8Len (s : Str) : Nat :=
  s.foldl (fun n c => n + c.utf8Size) 0

/-- Model of Rust `str::contains(pat)`: `pat` occurs as a contiguous
substring of `hay` (the empty pattern is contained in every string). -/
def strContains (hay pat : Str) : Bool :=
  match hay with
  | [] => pat.isEmpty
  | _ :: t => pat.isPrefixOf hay || strContains t pat

/-- Model of Rust `str::split(sep)`: splits at every occurrence of the
separator, keeping empty pieces, and always yields at least one piece. -/
def splitOnChar (sep : Char) : Str → List Str
  | [] => [[]]
  | c :: t =>
    if c = sep then [] :: splitOnChar sep t
    else
      match splitOnChar sep t with
      | [] => [[c]]
      | p :: ps => (c :: p) :: ps

/-- Model of Rust `str::rsplit_once(' ')`: splits at the last space,
returning the parts before and after it; `none` when there is no space. -/
def lastSpaceSplit : Str → Option (Str × Str)
  | [] => none
  | c :: t =>
    match lastSpaceSplit t with
    | some (a, b) => some (c :: a, b)
    | none => if c = ' ' then some ([], t) else none

/-- Numeric value of a digit string (most significant digit first). -/
def digitsToNat (s : Str) : Nat :=
  s.foldl (fun n c => 10 * n + (c.toNat - '0'.toNat)) 0

/-- Model of Rust `str::parse::<f64>()` restricted to finite decimal
literals: optional sign, then `digits`, `digits.digits`, `digits.` or
`.digits`.  Exponent, `inf` and `NaN` forms are outside the model; the
parsed value is exact in `ℚ`. -/
def parseF64 (s : Str) : Option Price :=
  let signAndRest : Price × Str :=
    match s with
    | '-' :: t => (-1, t)
    | '+' :: t => (1, t)
    | t => (1, t)
  let sign := signAndRest.1
  let t := signAndRest.2
  let ip := t.takeWhile isDigitChar
  let rest := t.drop ip.length
  match rest with
  | [] => if ip.isEmpty then none else some (sign * digitsToNat ip)
  | '.' :: fr =>
    let fp := fr.takeWhile isDigitChar
    if fr.length ≠ fp.length then none
    else if ip.isEmpty && fp.isEmpty then none
    else some (sign * ((digitsToNat ip : ℚ) + (digitsToNat fp : ℚ) / 10 ^ fp.length))
  | _ => none

/-- Wrapping `usize` subtraction, as Rust release builds compute
`a - b` (src/app.rs computes `items.len() - 1`, which underflows for an
empty list). -/
def usizeSub (a b : Nat) : Nat :=
  (a + 2 ^ 64 - b) % 2 ^ 64

/-- Association-list lookup with the 0 default of the Damerau-Levenshtein
character-row table. -/
def lookup0 (m : List (Char × Nat)) (c : Char) : Nat :=
  match m.find? (fun p => p.1 = c) with
  | some p => p.2
  | none => 0

/-- Matrix access for the Damerau-Levenshtein table (row-major list of
rows; out-of-range reads never occur on valid indices). -/
def dlMat (rows : List (List Nat)) (x y : Nat) : Nat :=
  (rows.getD x []).getD y 0

/-- Inner loop of the Lowrance-Wagner algorithm: extends the current row
(already holding columns `0..j`) over the remaining characters of `b`,
starting at column index `j`. -/
def dlInner (rows : List (List Nat)) (da : List (Char × Nat)) (ai : Char)
    (i : Nat) : List Char → Nat → Nat → List Nat → List Nat
  | [], _, _, cur => cur
  | bj :: rest, j, db, cur =>
    let k := lookup0 da bj
    let l := db
    let cost := if ai = bj then 0 else 1
    let db' := if ai = bj then j else db
    let v :=
      min (min (dlMat rows i j + cost) (cur.getLastD 0 + 1))
        (min (dlMat rows i (j + 1) + 1)
          (dlMat rows k l + (i - k - 1) + 1 + (j - l - 1)))
    dlInner rows da ai i rest (j + 1) db' (cur ++ [v])

/-- Outer loop of the Lowrance-Wagner algorithm over the characters of
`a`, accumulating the completed rows and the last-seen-row table `da`. -/
def dlOuter (bs : List Char) (maxd : Nat) :
    List Char → Nat → List (List Nat) → List (Char × Nat) → List (List Nat)
  | [], _, rows, _ => rows
  | ai :: as', i, rows, da =>
    let row := dlInner rows da ai i bs 1 0 [maxd, i]
    dlOuter bs maxd as' (i + 1) (rows ++ [row]) ((ai, i) :: da)

/-- Damerau-Levenshtein distance (unrestricted, with adjacent
transpositions), the metric the `textdistance` crate's
`str::damerau_levenshtein` computes, via the Lowrance-Wagner dynamic
program. -/
def damerau_levenshtein (a b : Str) : Nat :=
  let m := a.length
  let n := b.length
  let maxd := m + n
  let row0 := List.replicate (n + 2) maxd
  let row1 := maxd :: List.range (n + 1)
  let rows := dlOuter b maxd a 1 [row0, row1] []
  dlMat rows (m + 1) (n + 1)

/-- Model of Rust `Iterator::min_by_key`: the first element attaining the
minimum key, `none` on an empty list. -/
def minByKey? (f : α → Nat) : List α → Option α
  | [] => none
  | x :: xs =>
    match minByKey? f xs with
    | none => some x
    | some y => if f x ≤ f y then some x else some y

/-- Tag of a classified OCR line (src/app.rs `OcrType`). -/
inductive OcrType
  | Date
  | Entry
  | Sum
deriving DecidableEq, Repr

/-- One classified OCR line (src/app.rs `OcrEntry`). -/
structure OcrEntry where
  name : Str
  ocr_type : OcrType
deriving DecidableEq, Repr

/-- The workflow states (src/app.rs `AppState`). -/
inductive AppState
  | Blacklist
  | Category
  | ConvertBon
  | EditBonPrice
  | EditCategory
  | EditName
  | EditPrice
  | Home
  | Import
  | OCR
deriving DecidableEq, Repr

/-- The application events of the run loop (src/event.rs `AppEvent`). -/
inductive AppEvent
  | CalculateSummary
  | ConvertToBon
  | GoBlacklistState
  | GoCategoryState
  | GoConvertBonState
  | GoEditBonPriceState
  | GoEditCategoryState
  | GoEditNameState
  | GoEditPriceState
  | GoHomeState
  | GoImportState
  | GoOcrState
  | HideItem
  | ImportBon
  | NextItem
  | OcrMarkDate
  | OcrMarkSum
  | PerformOCR
  | PreviousItem
  | UpdateFromDatabase
  | Quit
deriving DecidableEq, Repr

/-- A receipt line item (src/database.rs `Entry`; also the draft entry
type of the conversion). -/
structure Entry where
  category : Str
  product : Str
  price : Price
deriving DecidableEq, Repr

/-- A receipt with its joined line items (src/database.rs `Bon`). -/
structure Bon where
  bon_id : Int
  date : Str
  price : Price
  entries : List Entry
deriving DecidableEq, Repr

/-- A category row (src/database.rs `Category`). -/
structure Category where
  category_id : Int
  category : Str
deriving DecidableEq, Repr

/-- Modelled from the spec: `ProductCatalogEntry` with id, category_id
and name.  The `Product` row struct and its accessors are called by
src/app.rs but are not part of src/database.rs. -/
structure Product where
  product_id : Int
  category_id : Int
  product : Str
deriving DecidableEq, Repr

/-- A row of the bons table (before the entries join of `get_bons`). -/
structure BonRow where
  bon_id : Int
  date : Str
  price : Price
deriving DecidableEq, Repr

/-- A row of the entries table. -/
structure EntryRow where
  bon_id : Int
  product_id : Int
  price : Price
deriving DecidableEq, Repr

/-- A per-category summary line (src/app.rs `SummaryEntry`). -/
structure SummaryEntry where
  category : Str
  total : Price
deriving DecidableEq, Repr

/-- The sqlite database state: row lists in insertion order plus the
AUTOINCREMENT sequence counters (last assigned id, 0 when the table has
never held a row). -/
structure Database where
  bons : List BonRow
  blacklist : List Str
  categories : List Category
  entries : List EntryRow
  products : List Product
  hidden : List Int
  processed : List Str
  seq_bon : Int
  seq_category : Int
  seq_product : Int
deriving DecidableEq, Repr

namespace Database

/-- src/database.rs `add_blacklist_entry`. -/
def add_blacklist_entry (db : Database) (e : Str) : Database :=
  { db with blacklist := db.blacklist ++ [e] }

/-- src/database.rs `create_bon` (AUTOINCREMENT assigns the next id). -/
def create_bon (db : Database) (date : Str) (price : Price) : Database :=
  { db with bons := db.bons ++ [⟨db.seq_bon + 1, date, price⟩],
            seq_bon := db.seq_bon + 1 }

/-- src/database.rs `create_category`. -/
def create_category (db : Database) (category : Str) : Database :=
  { db with categories := db.categories ++ [⟨db.seq_category + 1, category⟩],
            seq_category := db.seq_category + 1 }

/-- src/database.rs `create_entry`. -/
def create_entry (db : Database) (bon_id product_id : Int) (price : Price) :
    Database :=
  { db with entries := db.entries ++ [⟨bon_id, product_id, price⟩] }

/-- src/database.rs `create_product`. -/
def create_product (db : Database) (category_id : Int) (product : Str) :
    Database :=
  { db with products := db.products ++ [⟨db.seq_product + 1, category_id, product⟩],
            seq_product := db.seq_product + 1 }

/-- src/database.rs `get_blacklist`. -/
def get_blacklist (db : Database) : List Str := db.blacklist

/-- src/database.rs `get_categories`. -/
def get_categories (db : Database) : List Category := db.categories

/-- src/database.rs `get_last_bon_id`: `SELECT MAX(bonId)`, 0 when the
table is empty. -/
def get_last_bon_id (db : Database) : Int :=
  (db.bons.map BonRow.bon_id).foldl max 0

/-- Modelled from the spec: `list_products` of the persistence adapter
(the repository's `get_products` is not part of src/database.rs). -/
def get_products (db : Database) : List Product := db.products

/-- Modelled from the spec: the commit algorithm resolves a just-created
category by fetching the newly assigned id; modelled in the same MAX
pattern as `get_last_bon_id` (not part of src/database.rs). -/
def get_last_category_id (db : Database) : Int :=
  (db.categories.map Category.category_id).foldl max 0

/-- Modelled from the spec: fetch of the newly assigned product id (not
part of src/database.rs). -/
def get_last_product_id (db : Database) : Int :=
  (db.products.map Product.product_id).foldl max 0

/-- Modelled from the spec: `mark_processed(filename)` (not part of
src/database.rs). -/
def add_processed_entry (db : Database) (name : Str) : Database :=
  { db with processed := db.processed ++ [name] }

/-- Modelled from the spec: the processed-file list backing
`list_unprocessed_import_files` (not part of src/database.rs). -/
def get_processed (db : Database) : List Str := db.processed

/-- Modelled from the spec: `hide_receipt(id)` sets a soft-delete flag
(not part of src/database.rs). -/
def hide_bon (db : Database) (id : Int) : Database :=
  { db with hidden := db.hidden ++ [id] }

/-- src/database.rs `get_bons`: every non-hidden bons row with its line
items joined through products and categories (inner join: an entry whose
product or category row is missing is dropped). -/
def get_bons (db : Database) : List Bon :=
  (db.bons.filter fun row => !(db.hidden.contains row.bon_id)).map fun row =>
    { bon_id := row.bon_id, date := row.date, price := row.price,
      entries :=
        (db.entries.filter fun e => e.bon_id == row.bon_id).filterMap fun e =>
          (db.products.find? fun p => p.product_id == e.product_id).bind fun p =>
            (db.categories.find? fun c => c.category_id == p.category_id).map
              fun c => ⟨c.category, p.product, e.price⟩ }

end Database

/-- A bon list with its ratatui selection index (src/app.rs `BonList`;
`ListState` is modelled by its selected index). -/
structure BonList where
  items : List Bon
  state : Option Nat
deriving DecidableEq, Repr

/-- src/app.rs `CategoryList`. -/
structure CategoryList where
  items : List Category
  state : Option Nat
deriving DecidableEq, Repr

/-- src/app.rs `FileList`. -/
structure FileList where
  items : List Str
  state : Option Nat
deriving DecidableEq, Repr

/-- The receipt draft under editing (src/app.rs `NewBonList`). -/
structure NewBonList where
  date : Str
  items : List Entry
  price_calc : Price
  price_eq : Bool
  price_ocr : Price
  state : Option Nat
deriving DecidableEq, Repr

/-- src/app.rs `OcrList`. -/
structure OcrList where
  items : List OcrEntry
  state : Option Nat
deriving DecidableEq, Repr

/-- The application state (src/app.rs `App`).  `events` is the pending
application-event queue of the run loop; `ocr_raw_text` models the text
the external OCR engine recognizes in `ocr_file`; `import_dir` models
the file names present in the import directory. -/
structure App where
  bon_list : BonList
  bon_summary : List SummaryEntry
  category_list : CategoryList
  current_state : AppState
  database : Database
  edit_field : Str
  events : List AppEvent
  import_list : FileList
  import_path : Str
  new_bon_list : NewBonList
  ocr_blacklist : List Str
  ocr_list : OcrList
  ocr_file : Str
  ocr_raw_text : Str
  import_dir : List Str
  running : Bool
deriving DecidableEq, Repr

/-- src/event.rs `EventHandler::send`: append to the ordered event
queue. -/
def App.send (app : App) (e : AppEvent) : App :=
  { app with events := app.events ++ [e] }

/-- Model of float_cmp `approx_eq` with `F64Margin { ulps := 2,
epsilon := 1.0 }` over exact rationals: equal, or within the epsilon
margin.  The ulps component relates distinct f64 bit patterns at rounding
distance; in the exact-rational model it collapses into equality, which
the first disjunct covers. -/
def approx_eq (a b : Price) : Bool :=
  a == b || decide (|a - b| ≤ (1 : ℚ))

/-- Upsert into the category-to-total grouping of the Home summary.  The
source groups with a HashMap whose iteration order is unspecified; the
model fixes first-insertion order, on which no claim depends. -/
def upsertTotal (acc : List (Str × Price)) (e : Entry) : List (Str × Price) :=
  if acc.any fun p => p.1 == e.category then
    acc.map fun p => if p.1 == e.category then (p.1, p.2 + e.price) else p
  else acc ++ [(e.category, e.price)]

/-- src/app.rs `calculate_summary`: on Home, rebuild the per-category
summary of the selected bon plus a total row; on ConvertBon/EditPrice,
recompute the draft's computed price and then the reconciliation flag
against it. -/
def App.calculate_summary (app : App) : App :=
  if app.current_state = .Home then
    match app.bon_list.state with
    | some i =>
      match app.bon_list.items.get? i with
      | some bon =>
        let groups := bon.entries.foldl upsertTotal []
        let summary := groups.map fun p => SummaryEntry.mk p.1 p.2
        let total := (summary.map SummaryEntry.total).sum
        { app with bon_summary := summary ++ [⟨"total".data, total⟩] }
      | none => app
    | none => app
  else if app.current_state = .ConvertBon ∨ app.current_state = .EditPrice then
    let pc := (app.new_bon_list.items.map Entry.price).sum
    let pe := approx_eq app.new_bon_list.price_ocr pc
    { app with new_bon_list := { app.new_bon_list with
        price_calc := pc
        price_eq := pe } }
  else app

/-- Fixed-length match of the date regex `\d{2}[.,]\d{2}[.,]\d{4}` at the
head of the string. -/
def dateAt : Str → Option Str
  | d1 :: d2 :: s1 :: m1 :: m2 :: s2 :: y1 :: y2 :: y3 :: y4 :: _ =>
    if isDigitChar d1 && isDigitChar d2 && (s1 = '.' || s1 = ',') &&
        isDigitChar m1 && isDigitChar m2 && (s2 = '.' || s2 = ',') &&
        isDigitChar y1 && isDigitChar y2 && isDigitChar y3 && isDigitChar y4 then
      some [d1, d2, s1, m1, m2, s2, y1, y2, y3, y4]
    else none
  | _ => none

/-- src/app.rs `extract_date`: leftmost match of the date pattern. -/
def extract_date : Str → Option Str
  | [] => none
  | c :: t =>
    match dateAt (c :: t) with
    | some m => some m
    | none => extract_date t

/-- src/app.rs `extract_name`: the line up to its last space; fails when
the line has no space. -/
def extract_name (line : Str) : Option Str :=
  (lastSpaceSplit line).map Prod.fst

/-- Match of the price regex `(\d+[.,]\d+)` at the head of the string: a
maximal digit run, a separator, a maximal digit run. -/
def priceAt (s : Str) : Option Str :=
  let ip := s.takeWhile isDigitChar
  if ip.isEmpty then none
  else
    match s.drop ip.length with
    | sep :: r2 =>
      if sep = '.' ∨ sep = ',' then
        let fp := r2.takeWhile isDigitChar
        if fp.isEmpty then none else some (ip ++ sep :: fp)
      else none
    | [] => none

/-- Leftmost match of the price pattern. -/
def findPrice : Str → Option Str
  | [] => none
  | c :: t =>
    match priceAt (c :: t) with
    | some m => some m
    | none => findPrice t

/-- src/app.rs `extract_price`: leftmost `digits[.,]digits` substring,
the separator normalized to `.`, parsed as a number. -/
def extract_price (line : Str) : Option Price :=
  (findPrice line).bind fun m =>
    parseF64 (m.map fun c => if c = ',' then '.' else c)

/-- Category name for a category id: empty when no category has the id
(src/app.rs lines 222-227). -/
def categoryNameFor (categories : List Category) (id : Int) : Str :=
  ((categories.find? fun c => c.category_id == id).map Category.category).getD []

/-- The product-matching step of `convert_to_bon` (src/app.rs lines
208-228): the catalog entry at minimum Damerau-Levenshtein distance is
accepted when that distance is below threshold 4, yielding its canonical
name and its category's name.  The source writes the empty-catalog case
with a `usize::MAX` sentinel distance and an `unwrap`; the match below is
the same case split.  Returns (category, product). -/
def matchProduct (db_products : List Product) (db_categories : List Category)
    (name : Str) : Str × Str :=
  match minByKey? (fun e => damerau_levenshtein name e.product) db_products with
  | none => ([], name)
  | some p =>
    if damerau_levenshtein name p.product < 4 then
      (categoryNameFor db_categories p.category_id, p.product)
    else ([], name)

/-- One OcrLine dispatch step of `convert_to_bon` (src/app.rs lines
196-242). -/
def convertStep (db : Database) (nb : NewBonList) (elem : OcrEntry) :
    NewBonList :=
  match elem.ocr_type with
  | .Date =>
    match extract_date elem.name with
    | some date => { nb with date := date }
    | none => nb
  | .Entry =>
    match extract_name elem.name with
    | some name =>
      match extract_price elem.name with
      | some price =>
        let cp := matchProduct db.get_products db.get_categories name
        { nb with items := nb.items ++ [⟨cp.1, cp.2, price⟩] }
      | none => nb
    | none => nb
  | .Sum =>
    match extract_price elem.name with
    | some sum => { nb with price_ocr := sum }
    | none => nb

/-- src/app.rs `convert_to_bon`: reset the draft (the reconciliation flag
and the selection are not reset), fold the tagged OCR lines through
`convertStep`, select the first item when there is one, and queue the
state change and the summary recomputation. -/
def App.convert_to_bon (app : App) : App :=
  let nb0 := { app.new_bon_list with
    date := [], items := [], price_calc := 0, price_ocr := 0 }
  let nb1 := app.ocr_list.items.foldl (convertStep app.database) nb0
  let nb2 := if nb1.items.isEmpty then nb1 else { nb1 with state := some 0 }
  (({ app with new_bon_list := nb2 }).send .GoConvertBonState).send
    .CalculateSummary

/-- The key events the source dispatches on: Enter, Esc, a character key,
or anything else. -/
inductive KeyEvent
  | enter
  | esc
  | char (c : Char)
  | other
deriving DecidableEq, Repr

/-- Model of `tui_textarea::TextArea::input` on the one-line edit buffer
with the cursor at the end: a character key appends its character, other
keys leave the buffer unchanged. -/
def editInput (key : KeyEvent) (buf : Str) : Str :=
  match key with
  | .char c => buf ++ [c]
  | _ => buf

/-- Fractional decimal digits of a rational in [0, 1), up to the given
bound (exact for the decimal fractions prices are in this model). -/
def fracDigits : Nat → ℚ → Str
  | 0, _ => []
  | n + 1, q =>
    if q = 0 then []
    else
      let q10 := q * 10
      let d := ⌊q10⌋
      Char.ofNat ('0'.toNat + d.toNat) :: fracDigits n (q10 - d)

/-- Decimal rendering of a price, standing in for Rust f64 `to_string`:
sign, integer digits, then the exact fractional digits (up to 20).  Used
only to preload the edit buffer. -/
def priceToStr (q : Price) : Str :=
  let sign : Str := if q < 0 then ['-'] else []
  let aq := |q|
  let ip := Nat.toDigits 10 ⌊aq⌋.toNat
  let fp := fracDigits 20 (aq - ⌊aq⌋)
  sign ++ ip ++ (if fp.isEmpty then [] else '.' :: fp)

/-- Model of `Path::join` for the relative file names of the import
list: parent, separator, child. -/
def pathJoin (a b : Str) : Str :=
  if a.isEmpty then b
  else if a.getLastD ' ' = '/' then a ++ b else a ++ '/' :: b

/-- Normalization `replace(",", ".")` then `parse::<f64>()` with the
`unwrap_or(0.0)` default, as the price-edit commits apply it (src/app.rs
lines 287-295 and 314-322). -/
def parsePriceEdit (buf : Str) : Price :=
  (parseF64 (buf.map fun c => if c = ',' then '.' else c)).getD 0

/-- src/app.rs `handle_key_events`: the full key dispatch.  The source's
inner `match self.current_state` of the edit branch also names an
`AppState::EditCategory` arm that the outer branch makes unreachable,
and its character-key arms are distinct literal patterns, written below
as an if-chain on the character; both are the same dispatch.  Rust
panics from out-of-range `Vec` indexing or removal are modelled as
no-ops on the indexed list (they are unreachable for in-range
selections). -/
def App.handle_key_events (app : App) (key : KeyEvent) : App :=
  if app.current_state = .Blacklist then
    match key with
    | .enter =>
      (({ app with
            database := app.database.add_blacklist_entry app.edit_field }).send
          .GoOcrState).send .UpdateFromDatabase
    | .esc => app.send .GoOcrState
    | _ => { app with edit_field := editInput key app.edit_field }
  else if app.current_state = .EditBonPrice ∨ app.current_state = .EditName ∨
      app.current_state = .EditPrice then
    match key with
    | .enter =>
      let app' :=
        if app.current_state = .EditBonPrice then
          let v := parsePriceEdit app.edit_field
          { app with new_bon_list := { app.new_bon_list with
              price_ocr := v } }
        else if app.current_state = .EditName then
          match app.new_bon_list.state with
          | some i =>
            match app.new_bon_list.items.get? i with
            | some entry =>
              let items' := app.new_bon_list.items.set i
                { entry with product := app.edit_field }
              { app with new_bon_list := { app.new_bon_list with
                  items := items' } }
            | none => app
          | none => app
        else
          match app.new_bon_list.state with
          | some i =>
            match app.new_bon_list.items.get? i with
            | some entry =>
              let v := parsePriceEdit app.edit_field
              let items' := app.new_bon_list.items.set i { entry with price := v }
              { app with new_bon_list := { app.new_bon_list with
                  items := items' } }
            | none => app
          | none => app
      (app'.send .GoConvertBonState).send .CalculateSummary
    | .esc => app.send .GoConvertBonState
    | _ => { app with edit_field := editInput key app.edit_field }
  else if app.current_state = .EditCategory then
    match key with
    | .enter =>
      let category := app.edit_field
      let category_exists :=
        app.category_list.items.any fun e => e.category == category
      let app' :=
        if category_exists then app
        else { app with database := app.database.create_category category }
      (app'.send .GoCategoryState).send .UpdateFromDatabase
    | .esc => app.send .GoCategoryState
    | _ => { app with edit_field := editInput key app.edit_field }
  else
    match key with
    | .char c =>
      if c = 'a' then
        if app.current_state = .Category then
          ({ app with edit_field := [] }).send .GoEditCategoryState
        else app
      else if c = 'b' then
        if app.current_state = .OCR then
          let buf :=
            match app.ocr_list.state with
            | some i =>
              match app.ocr_list.items.get? i with
              | some e => e.name
              | none => []
            | none => []
          ({ app with edit_field := buf }).send .GoBlacklistState
        else app
      else if c = 'c' then app.send .GoCategoryState
      else if c = 'd' then app.send .OcrMarkDate
      else if c = 'h' then app.send .HideItem
      else if c = 'i' then app.send .GoImportState
      else if c = 'j' then app.send .NextItem
      else if c = 'k' then app.send .PreviousItem
      else if c = 'n' then
        let buf :=
          match app.new_bon_list.state with
          | some i =>
            match app.new_bon_list.items.get? i with
            | some e => e.product
            | none => []
          | none => []
        ({ app with edit_field := buf }).send .GoEditNameState
      else if c = 'o' then
        ({ app with edit_field := priceToStr app.new_bon_list.price_ocr }).send
          .GoEditBonPriceState
      else if c = 'p' then
        let buf :=
          match app.new_bon_list.state with
          | some i =>
            match app.new_bon_list.items.get? i with
            | some e => priceToStr e.price
            | none => []
          | none => []
        ({ app with edit_field := buf }).send .GoEditPriceState
      else if c = 'q' then app.send .Quit
      else if c = 's' then app.send .OcrMarkSum
      else if c = 'x' then
        if app.current_state = .OCR then
          match app.ocr_list.state with
          | some i =>
            let items' := app.ocr_list.items.eraseIdx i
            { app with ocr_list := { app.ocr_list with items := items' } }
          | none => app
        else if app.current_state = .ConvertBon then
          let app' :=
            match app.new_bon_list.state with
            | some i =>
              let items' := app.new_bon_list.items.eraseIdx i
              { app with new_bon_list := { app.new_bon_list with
                  items := items' } }
            | none => app
          app'.send .CalculateSummary
        else app
      else app
    | .enter =>
      if app.current_state = .Import then
        let app' :=
          match app.import_list.state with
          | some i =>
            match app.import_list.items.get? i with
            | some file_name =>
              { app with ocr_file := pathJoin app.import_path file_name }
            | none => app
          | none => app
        app'.send .GoOcrState
      else if app.current_state = .OCR then app.send .ConvertToBon
      else if app.current_state = .ConvertBon then app.send .ImportBon
      else if app.current_state = .Category then
        let app' :=
          match app.category_list.state with
          | some i =>
            match app.category_list.items.get? i with
            | some category =>
              match app.new_bon_list.state with
              | some j =>
                match app.new_bon_list.items.get? j with
                | some item =>
                  let items' := app.new_bon_list.items.set j
                    { item with category := category.category }
                  { app with new_bon_list := { app.new_bon_list with
                      items := items' } }
                | none => app
              | none => app
            | none => app
          | none => app
        app'.send .GoConvertBonState
      else app
    | .esc =>
      if app.current_state = .Category then app.send .GoConvertBonState
      else app.send .GoHomeState
    | .other => app

/-- src/app.rs `go_blacklist_state`. -/
def App.go_blacklist_state (app : App) : App :=
  if app.current_state = .OCR then { app with current_state := .Blacklist }
  else app

/-- src/app.rs `go_category_state`. -/
def App.go_category_state (app : App) : App :=
  if app.current_state = .ConvertBon ∨ app.current_state = .EditCategory then
    let cl :=
      if app.category_list.items.isEmpty then app.category_list
      else { app.category_list with state := some 0 }
    { app with category_list := cl, current_state := .Category }
  else app

/-- src/app.rs `go_convert_bon_state` (unconditional). -/
def App.go_convert_bon_state (app : App) : App :=
  { app with current_state := .ConvertBon }

/-- src/app.rs `go_edit_bon_price_state`. -/
def App.go_edit_bon_price_state (app : App) : App :=
  if app.current_state = .ConvertBon then
    { app with current_state := .EditBonPrice }
  else app

/-- src/app.rs `go_edit_category_state`. -/
def App.go_edit_category_state (app : App) : App :=
  if app.current_state = .Category then
    { app with current_state := .EditCategory }
  else app

/-- src/app.rs `go_edit_name_state`. -/
def App.go_edit_name_state (app : App) : App :=
  if app.current_state = .ConvertBon then
    { app with current_state := .EditName }
  else app

/-- src/app.rs `go_edit_price_state`. -/
def App.go_edit_price_state (app : App) : App :=
  if app.current_state = .ConvertBon then
    { app with current_state := .EditPrice }
  else app

/-- src/app.rs `go_home_state`: clear the OCR lines and selection. -/
def App.go_home_state (app : App) : App :=
  { app with ocr_list := { items := [], state := none },
             current_state := .Home }

/-- src/app.rs `go_import_state`. -/
def App.go_import_state (app : App) : App :=
  if app.current_state = .Home then { app with current_state := .Import }
  else app

/-- src/app.rs `go_ocr_state`: enter OCR; with no lines yet, show the
placeholder and queue the OCR run. -/
def App.go_ocr_state (app : App) : App :=
  let app' := { app with current_state := .OCR }
  if app'.ocr_list.items.isEmpty then
    let items' : List OcrEntry := [⟨"Processing..".data, .Entry⟩]
    ({ app' with ocr_list := { app'.ocr_list with
        items := items' } }).send .PerformOCR
  else app'

/-- src/app.rs `hide_item`. -/
def App.hide_item (app : App) : App :=
  if app.current_state = .Home then
    match app.bon_list.state with
    | some i =>
      match app.bon_list.items.get? i with
      | some entry =>
        ({ app with database := app.database.hide_bon entry.bon_id }).send
          .UpdateFromDatabase
      | none => app
    | none => app
  else app

/-- The date normalization of `import_bon` (src/app.rs lines 540-542):
split on '.', reverse the components, join with '-'. -/
def normalize_date (s : Str) : Str :=
  List.intercalate ['-'] (splitOnChar '.' s).reverse

/-- The per-entry body of the commit loop of `import_bon` (src/app.rs
lines 546-571): resolve or create the category by name, resolve or
create the product by name, then insert the entry row.  For an existing
product the source's closure `|cat| cat.category_id` takes the found
product row's category_id — that value, not the product's own id, is
what the entry row links to; the model preserves this. -/
def importEntryStep (bon_id : Int) (db : Database) (entry : Entry) : Database :=
  let categories := db.get_categories
  let dbAndCat : Database × Int :=
    match categories.find? (fun cat => cat.category == entry.category) with
    | some cat => (db, cat.category_id)
    | none =>
      let db' := db.create_category entry.category
      (db', db'.get_last_category_id)
  let db' := dbAndCat.1
  let category_id := dbAndCat.2
  let products := db'.get_products
  let dbAndProd : Database × Int :=
    match products.find? (fun prod => prod.product == entry.product) with
    | some cat => (db', cat.category_id)
    | none =>
      let db'' := db'.create_product category_id entry.product
      (db'', db''.get_last_product_id)
  dbAndProd.1.create_entry bon_id dbAndProd.2 entry.price

/-- src/app.rs `import_bon`: normalize the draft date, create the bon
row with the OCR-reported price, insert every draft entry, mark the
source file (its name: the last path component) processed, clear the OCR
file reference, and queue the Home refresh. -/
def App.import_bon (app : App) : App :=
  let date := normalize_date app.new_bon_list.date
  let db1 := app.database.create_bon date app.new_bon_list.price_ocr
  let bon_id := db1.get_last_bon_id
  let db2 := app.new_bon_list.items.foldl (importEntryStep bon_id) db1
  let file_name := (splitOnChar '/' app.ocr_file).getLastD []
  let db3 := db2.add_processed_entry file_name
  ((({ app with database := db3, ocr_file := [] }).send .GoHomeState).send
      .UpdateFromDatabase).send .CalculateSummary

/-- src/app.rs `next_item`: advance the active list's selection when the
guard `i < items.len() - 1` passes; the subtraction is the wrapping
usize subtraction of the source's release build.  ratatui `select_next`
on a selection `Some i` yields `Some (i + 1)`. -/
def App.next_item (app : App) : App :=
  match app.current_state with
  | .Category =>
    match app.category_list.state with
    | some i =>
      if i < usizeSub app.category_list.items.length 1 then
        let s := some (i + 1)
        { app with category_list := { app.category_list with state := s } }
      else app
    | none => app
  | .ConvertBon =>
    match app.new_bon_list.state with
    | some i =>
      if i < usizeSub app.new_bon_list.items.length 1 then
        let s := some (i + 1)
        { app with new_bon_list := { app.new_bon_list with state := s } }
      else app
    | none => app
  | .Home =>
    match app.bon_list.state with
    | some i =>
      if i < usizeSub app.bon_list.items.length 1 then
        let s := some (i + 1)
        ({ app with bon_list := { app.bon_list with state := s } }).send
          .CalculateSummary
      else app
    | none => app
  | .Import =>
    match app.import_list.state with
    | some i =>
      if i < usizeSub app.import_list.items.length 1 then
        let s := some (i + 1)
        { app with import_list := { app.import_list with state := s } }
      else app
    | none => app
  | .OCR =>
    match app.ocr_list.state with
    | some i =>
      if i < usizeSub app.ocr_list.items.length 1 then
        let s := some (i + 1)
        { app with ocr_list := { app.ocr_list with state := s } }
      else app
    | none => app
  | _ => app

/-- src/app.rs `ocr_mark_date`: set the selected Entry line to Date only
when no line is tagged Date; toggle a Date line back to Entry. -/
def App.ocr_mark_date (app : App) : App :=
  let dates := app.ocr_list.items.countP fun e => e.ocr_type == .Date
  match app.ocr_list.state with
  | some i =>
    match app.ocr_list.items.get? i with
    | some entry =>
      let t :=
        if dates = 0 ∧ entry.ocr_type = .Entry then OcrType.Date
        else if entry.ocr_type = .Date then .Entry
        else entry.ocr_type
      let items' := app.ocr_list.items.set i { entry with ocr_type := t }
      { app with ocr_list := { app.ocr_list with items := items' } }
    | none => app
  | none => app

/-- src/app.rs `ocr_mark_sum`, analogous to `ocr_mark_date`. -/
def App.ocr_mark_sum (app : App) : App :=
  let sums := app.ocr_list.items.countP fun e => e.ocr_type == .Sum
  match app.ocr_list.state with
  | some i =>
    match app.ocr_list.items.get? i with
    | some entry =>
      let t :=
        if sums = 0 ∧ entry.ocr_type = .Entry then OcrType.Sum
        else if entry.ocr_type = .Sum then .Entry
        else entry.ocr_type
      let items' := app.ocr_list.items.set i { entry with ocr_type := t }
      { app with ocr_list := { app.ocr_list with items := items' } }
    | none => app
  | none => app

/-- The trailing-artifact strip of the classifier (src/app.rs lines
689-697): when the line ends in a space followed by one word character
(regex `r" \w$"`), both are removed. -/
def stripTrailingArtifact (line : Str) : Str :=
  match line.reverse with
  | c :: ' ' :: rest => if isWordChar c then rest.reverse else line
  | _ => line

/-- The classifier pipeline of `perform_ocr` (src/app.rs lines 685-714),
applied to the raw text the OCR engine returned: split into lines, trim,
drop byte-length-at-most-1 lines, strip a trailing single-character
token, require a digit in the last space-delimited token, require a
delimiter, drop lines containing a blacklist substring. -/
def classifierLines (raw : Str) (blacklist : List Str) : List Str :=
  ((((((splitOnChar '\n' raw).map strTrim).filter
      fun line => decide (1 < utf8Len line)).map stripTrailingArtifact).filter
      fun line => ((splitOnChar ' ' line).getLastD []).any isDigitChar).filter
      fun line => line.any isDelimChar).filter
      fun line => !(blacklist.any fun e => strContains line e)

/-- src/app.rs `perform_ocr` past the external OCR engine call: classify
the raw text, tag every survivor Entry, and select the first line when
any survived. -/
def App.perform_ocr (app : App) : App :=
  let items := (classifierLines app.ocr_raw_text app.ocr_blacklist).map
    fun line => OcrEntry.mk line .Entry
  let ol :=
    if items.isEmpty then { app.ocr_list with items := items }
    else { items := items, state := some 0 }
  { app with ocr_list := ol }

/-- src/app.rs `previous_item`: move the active list's selection back
when not at index 0; ratatui `select_previous` on `Some i` yields
`Some (i - 1)`. -/
def App.previous_item (app : App) : App :=
  match app.current_state with
  | .Category =>
    match app.category_list.state with
    | some i =>
      if 0 < i then
        let s := some (i - 1)
        { app with category_list := { app.category_list with state := s } }
      else app
    | none => app
  | .ConvertBon =>
    match app.new_bon_list.state with
    | some i =>
      if 0 < i then
        let s := some (i - 1)
        { app with new_bon_list := { app.new_bon_list with state := s } }
      else app
    | none => app
  | .Home =>
    match app.bon_list.state with
    | some i =>
      if 0 < i then
        let s := some (i - 1)
        ({ app with bon_list := { app.bon_list with state := s } }).send
          .CalculateSummary
      else app
    | none => app
  | .Import =>
    match app.import_list.state with
    | some i =>
      if 0 < i then
        let s := some (i - 1)
        { app with import_list := { app.import_list with state := s } }
      else app
    | none => app
  | .OCR =>
    match app.ocr_list.state with
    | some i =>
      if 0 < i then
        let s := some (i - 1)
        { app with ocr_list := { app.ocr_list with state := s } }
      else app
    | none => app
  | _ => app

/-- src/app.rs `read_ocr_files`, over the modelled import directory
listing: keep the image files not already marked processed. -/
def read_ocr_files (dirFiles : List Str) (processed : List Str) : List Str :=
  (dirFiles.filter fun entry =>
      !(processed.any fun e => strContains entry e)).filter
    fun entry =>
      strContains entry "jpg".data || strContains entry "png".data ||
        strContains entry "jpeg".data

/-- src/app.rs `update_from_database`: on OCR, reload the blacklist and
re-filter the current lines; on Home, reload the bons and the importable
files; on Category, reload the categories. -/
def App.update_from_database (app : App) : App :=
  if app.current_state = .OCR then
    let bl := app.database.get_blacklist
    let items' := app.ocr_list.items.filter fun line =>
      !(bl.any fun e => strContains line.name e)
    { app with
      ocr_blacklist := bl
      ocr_list := { app.ocr_list with items := items' } }
  else if app.current_state = .Home then
    let items := app.database.get_bons
    let bl' :=
      if items.isEmpty then { app.bon_list with items := items }
      else { items := items, state := some 0 }
    let files := read_ocr_files app.import_dir app.database.get_processed
    let il :=
      if files.isEmpty then { app.import_list with items := files }
      else { items := files, state := some 0 }
    { app with bon_list := bl', import_list := il }
  else if app.current_state = .Category then
    let items := app.database.get_categories
    let cl :=
      if items.isEmpty then { app.category_list with items := items }
      else { items := items, state := some 0 }
    { app with category_list := cl }
  else app

/-- src/app.rs `quit`. -/
def App.quit (app : App) : App :=
  { app with running := false }

/-- The `Event::App` dispatch of the run loop (src/app.rs lines
786-808). -/
def App.handleEvent (app : App) : AppEvent → App
  | .CalculateSummary => app.calculate_summary
  | .ConvertToBon => app.convert_to_bon
  | .GoBlacklistState => app.go_blacklist_state
  | .GoCategoryState => app.go_category_state
  | .GoConvertBonState => app.go_convert_bon_state
  | .GoEditBonPriceState => app.go_edit_bon_price_state
  | .GoEditCategoryState => app.go_edit_category_state
  | .GoEditNameState => app.go_edit_name_state
  | .GoEditPriceState => app.go_edit_price_state
  | .GoHomeState => app.go_home_state
  | .GoImportState => app.go_import_state
  | .GoOcrState => app.go_ocr_state
  | .HideItem => app.hide_item
  | .ImportBon => app.import_bon
  | .NextItem => app.next_item
  | .OcrMarkDate => app.ocr_mark_date
  | .OcrMarkSum => app.ocr_mark_sum
  | .PerformOCR => app.perform_ocr
  | .PreviousItem => app.previous_item
  | .UpdateFromDatabase => app.update_from_database
  | .Quit => app.quit

/-- Process up to `fuel` queued application events in order, exactly as
the event loop dequeues them (a handled event may queue further
events). -/
def App.processAll : Nat → App → App
  | 0, app => app
  | n + 1, app =>
    match app.events with
    | [] => app
    | e :: rest => App.processAll n (App.handleEvent { app with events := rest } e)

/-! Concrete fixtures used by the claim theorems. -/

/-- An empty database. -/
def baseDb : Database :=
  ⟨[], [], [], [], [], [], [], 0, 0, 0⟩

/-- A freshly started application: Home state, empty lists, empty
queue. -/
def baseApp : App :=
  ⟨⟨[], none⟩, [], ⟨[], none⟩, .Home, baseDb, [], [], ⟨[], none⟩, [],
    ⟨[], [], 0, false, 0, none⟩, [], ⟨[], none⟩, [], [], [], true⟩

/-- A database whose catalog holds two products of category 1; the
product named "fork" has product id 2 but category id 1. -/
def c1db : Database :=
  { baseDb with
    categories := [⟨1, "food".data⟩]
    seq_category := 1
    products := [⟨1, 1, "butter".data⟩, ⟨2, 1, "fork".data⟩]
    seq_product := 2 }

/-- A draft about to be committed whose single entry names the existing
product "fork". -/
def c1app : App :=
  { baseApp with
    current_state := .ConvertBon
    database := c1db
    ocr_file := "/bons/a.jpg".data
    new_bon_list :=
      ⟨"24.12.2024".data, [⟨"food".data, "fork".data, 5/2⟩], 5/2, true, 5/2,
        some 0⟩ }

/-- An EditPrice session whose buffer holds the non-numeric text "abc"
over a stored item price of 2.49. -/
def c2app : App :=
  { baseApp with
    current_state := .EditPrice
    edit_field := "abc".data
    new_bon_list :=
      ⟨[], [⟨"food".data, "Milch".data, 249/100⟩], 249/100, true, 249/100,
        some 0⟩ }

/-- An EditBonPrice session whose buffer holds the non-numeric text
"abc" over a stored reported price of 5.59. -/
def c2bapp : App :=
  { baseApp with
    current_state := .EditBonPrice
    edit_field := "abc".data
    new_bon_list := ⟨[], [], 0, false, 559/100, none⟩ }

/-- An OCR review where line 0 is tagged Date and the selected line 1 is
tagged Entry. -/
def c3app : App :=
  { baseApp with
    current_state := .OCR
    ocr_list := ⟨[⟨"24.12.2024".data, .Date⟩, ⟨"Milch 2,49".data, .Entry⟩],
      some 1⟩ }

/-- A ConvertBon session with two draft items, for the summary-invariant
witness. -/
def c6w : App :=
  { baseApp with
    current_state := .ConvertBon
    new_bon_list :=
      ⟨"24.12.2024".data,
        [⟨"food".data, "Milch".data, 249/100⟩, ⟨"food".data, "Brot".data, 31/10⟩],
        0, false, 559/100, some 0⟩
    ocr_list := ⟨[⟨"Milch 2,49".data, .Entry⟩, ⟨"SUMME 5,59".data, .Sum⟩],
      some 0⟩ }

/-- A Blacklist edit session with an empty buffer over one OCR line. -/
def c8app : App :=
  { baseApp with
    current_state := .Blacklist
    ocr_list := ⟨[⟨"Milch 2,49".data, .Entry⟩], some 0⟩ }

/-- A ConvertBon session whose draft item list is empty while the
selection still points at index 0 (the state left behind by deleting the
last item). -/
def c10app : App :=
  { baseApp with
    current_state := .ConvertBon
    new_bon_list := ⟨[], [], 0, false, 0, some 0⟩ }

/-! Helper lemmas. -/

/-- Setting a list position to the element already there leaves the list
unchanged. -/
theorem set_self_of_get? {α : Type} (l : List α) (i : Nat) (e : α)
    (h : l.get? i = some e) : l.set i e = l := by
  induction l generalizing i with
  | nil => simp at h
  | cons a t ih =>
    cases i with
    | zero => simp only [List.get?] at h; injection h with h; rw [h]; rfl
    | succ n =>
      simp only [List.get?] at h
      simp only [List.set]
      rw [ih n h]

/-! Claim C1. -/

/-- C1: the claim says the commit links each entry row to the id of the
product whose name equals the entry's product name.  At this input the
catalog's product "fork" has product id 2, yet the entry row created by
`import_bon` carries product id 1 — the found product row's category id
(src/app.rs line 568 maps an existing product through `|cat|
cat.category_id`) — while no product row is created.  This contradicts
the claim. -/
theorem C1_entry_links_to_category_id :
    ((c1app.database.get_products.find? fun p =>
        p.product == "fork".data).map Product.product_id) = some 2 ∧
    (App.import_bon c1app).database.entries.map EntryRow.product_id = [1] ∧
    (App.import_bon c1app).database.products = c1app.database.products := by
  decide

/-! Claim C2. -/

/-- C2: the claim says a price edit whose buffer does not parse is
rejected, keeping the edit state and the stored price.  At buffer "abc"
(which does not parse) the EditPrice commit instead stores the
`unwrap_or(0.0)` default over the 2.49 item price and leaves the edit
state for ConvertBon, and the EditBonPrice commit likewise zeroes the
5.59 reported price.  This contradicts the claim. -/
theorem C2_parse_failure_defaults_to_zero :
    parseF64 "abc".data = none ∧
    ((App.processAll 2 (App.handle_key_events c2app KeyEvent.enter)).current_state =
        AppState.ConvertBon ∧
      (App.processAll 2
          (App.handle_key_events c2app KeyEvent.enter)).new_bon_list.items.map
        Entry.price = [0]) ∧
    ((App.processAll 2 (App.handle_key_events c2bapp KeyEvent.enter)).current_state =
        AppState.ConvertBon ∧
      (App.processAll 2
          (App.handle_key_events c2bapp KeyEvent.enter)).new_bon_list.price_ocr = 0) := by
  decide

/-! Claim C3. -/

/-- C3 counterexample: with line 0 tagged Date and the selected line 1
tagged Entry, the claim says MarkAsDate retags line 0 to Entry and line
1 to Date, i.e. yields [Entry, Date]; the code leaves both tags
unchanged. -/
theorem C3_counterexample_mark_date_noop :
    (App.ocr_mark_date c3app).ocr_list.items.map OcrEntry.ocr_type =
      [OcrType.Date, OcrType.Entry] ∧
    (App.ocr_mark_date c3app).ocr_list.items.map OcrEntry.ocr_type ≠
      [OcrType.Entry, OcrType.Date] := by
  decide

/-- C3 (amended): when some line is already tagged Date and the selected
line is tagged Entry, MarkAsDate is a no-op — the line list (hence every
tag) is unchanged, so the old line stays the unique Date line and never
two lines are tagged Date. -/
theorem C3_mark_date_on_entry_noop (app : App) (i : Nat) (nm : Str)
    (hsel : app.ocr_list.state = some i)
    (hget : app.ocr_list.items.get? i = some ⟨nm, OcrType.Entry⟩)
    (hdates : 0 < app.ocr_list.items.countP fun e => e.ocr_type == OcrType.Date) :
    (App.ocr_mark_date app).ocr_list.items = app.ocr_list.items := by
  have hd : ¬ (app.ocr_list.items.countP fun e => e.ocr_type == OcrType.Date) = 0 :=
    Nat.pos_iff_ne_zero.mp hdates
  simp only [App.ocr_mark_date, hsel, hget, hd, false_and, if_false]
  simp only [show ¬ (OcrType.Entry = OcrType.Date) from fun hc =>
    OcrType.noConfusion hc, if_false, ite_false]
  exact set_self_of_get? app.ocr_list.items i ⟨nm, OcrType.Entry⟩ hget

/-- C3 witness: the amended no-op theorem applied at the concrete
two-line review. -/
theorem C3_mark_date_on_entry_noop_witness :
    (App.ocr_mark_date c3app).ocr_list.items = c3app.ocr_list.items :=
  C3_mark_date_on_entry_noop c3app 1 "Milch 2,49".data (by decide) (by decide)
    (by decide)

/-! Claim C8. -/

/-- C8: the claim says committing an empty blacklist buffer is a no-op
on the stored blacklist and on the OCR line list.  The code has no
non-empty guard: it persists the empty string as a blacklist entry, and
the triggered re-filter then drops every OCR line, because every string
contains the empty substring.  This contradicts the claim. -/
theorem C8_empty_blacklist_commit_not_noop :
    c8app.edit_field = [] ∧
    (App.processAll 2 (App.handle_key_events c8app KeyEvent.enter)).database.blacklist =
      [[]] ∧
    (App.processAll 2 (App.handle_key_events c8app KeyEvent.enter)).ocr_list.items =
      [] := by
  decide

/-! Claim C9. -/

/-- `splitOnChar` peels off the piece before the first separator. -/
theorem splitOnChar_append (sep : Char) (a b : Str) (ha : sep ∉ a) :
    splitOnChar sep (a ++ sep :: b) = a :: splitOnChar sep b := by
  induction a with
  | nil => simp [splitOnChar]
  | cons c t ih =>
    have hc : ¬ c = sep := fun h => ha (h ▸ List.mem_cons_self c t)
    have ht : sep ∉ t := fun h => ha (List.mem_cons_of_mem _ h)
    show splitOnChar sep (c :: (t ++ sep :: b)) = (c :: t) :: splitOnChar sep b
    rw [splitOnChar, if_neg hc, ih ht]

/-- `splitOnChar` on a separator-free string yields that string alone. -/
theorem splitOnChar_of_not_mem (sep : Char) (s : Str) (h : sep ∉ s) :
    splitOnChar sep s = [s] := by
  induction s with
  | nil => rfl
  | cons c t ih =>
    have hc : ¬ c = sep := fun hh => h (hh ▸ List.mem_cons_self c t)
    have ht : sep ∉ t := fun hh => h (List.mem_cons_of_mem _ hh)
    simp only [splitOnChar, if_neg hc, ih ht]

/-- C9 counterexample: the date extractor also accepts ',' separators,
and such a date is not reordered by the commit normalization — it is
stored unchanged instead of becoming year-month-day. -/
theorem C9_counterexample_comma_date :
    extract_date "24,12,2024".data = some "24,12,2024".data ∧
    normalize_date "24,12,2024".data = "24,12,2024".data ∧
    normalize_date "24,12,2024".data ≠ "2024-12-24".data := by
  decide

/-- C9 (amended): the commit normalization reorders day.month.year to
year-month-day for every date whose separators are '.'; a date string
containing no '.' (such as the comma-separated dates the extractor can
also produce) is left unchanged. -/
theorem C9_dot_date_normalized (d m y s : Str)
    (hd : '.' ∉ d) (hm : '.' ∉ m) (hy : '.' ∉ y) (hs : '.' ∉ s) :
    normalize_date (d ++ '.' :: (m ++ '.' :: y)) = y ++ '-' :: (m ++ '-' :: d) ∧
    normalize_date s = s := by
  constructor
  · unfold normalize_date
    rw [show d ++ '.' :: (m ++ '.' :: y) = d ++ '.' :: (m ++ '.' :: y) from rfl,
      splitOnChar_append _ _ _ hd, splitOnChar_append _ _ _ hm,
      splitOnChar_of_not_mem _ _ hy]
    simp [List.intercalate]
  · unfold normalize_date
    rw [splitOnChar_of_not_mem _ _ hs]
    simp [List.intercalate]

/-- C9 witness: the normalization theorem applied at the concrete date
24.12.2024 and the comma date 24,12,2024. -/
theorem C9_dot_date_normalized_witness :
    normalize_date ("24".data ++ '.' :: ("12".data ++ '.' :: "2024".data)) =
      "2024".data ++ '-' :: ("12".data ++ '-' :: "24".data) ∧
    normalize_date "24,12,2024".data = "24,12,2024".data :=
  C9_dot_date_normalized "24".data "12".data "2024".data "24,12,2024".data
    (by decide) (by decide) (by decide) (by decide)

/-! Claim C4. -/

/-- C4: on any raw OCR text and blacklist, the surviving lines are
exactly the classifier output, each tagged Entry; the survivors appear
in input order (a sublist of the normalized input lines); and every
survivor contains a delimiter, has a digit in its last space-delimited
token, and contains no blacklist substring. -/
theorem C4_classifier_survivors (app : App) :
    (App.perform_ocr app).ocr_list.items =
      (classifierLines app.ocr_raw_text app.ocr_blacklist).map
        (fun line => OcrEntry.mk line OcrType.Entry) ∧
    (classifierLines app.ocr_raw_text app.ocr_blacklist).Sublist
      (((splitOnChar '\n' app.ocr_raw_text).map strTrim).map
        stripTrailingArtifact) ∧
    ∀ line ∈ classifierLines app.ocr_raw_text app.ocr_blacklist,
      line.any isDelimChar = true ∧
      ((splitOnChar ' ' line).getLastD []).any isDigitChar = true ∧
      ∀ b ∈ app.ocr_blacklist, strContains line b = false := by
  refine ⟨?_, ?_, ?_⟩
  · simp only [App.perform_ocr]
    split <;> rfl
  · unfold classifierLines
    refine List.Sublist.trans (List.filter_sublist _) ?_
    refine List.Sublist.trans (List.filter_sublist _) ?_
    refine List.Sublist.trans (List.filter_sublist _) ?_
    exact (List.filter_sublist _).map _
  · intro line hline
    unfold classifierLines at hline
    have h5 := List.mem_filter.mp hline
    have h4 := List.mem_filter.mp h5.1
    have h3 := List.mem_filter.mp h4.1
    refine ⟨h4.2, h3.2, ?_⟩
    intro b hb
    have hany : (app.ocr_blacklist.any fun e => strContains line e) = false := by
      simpa using h5.2
    cases hcb : strContains line b with
    | false => rfl
    | true =>
      exact absurd (List.any_eq_true.mpr ⟨b, hb, hcb⟩)
        (by rw [hany]; exact Bool.false_ne_true)

/-- A small OCR session: one good line, one line lacking a delimiter,
one blacklisted line. -/
def c4app : App :=
  { baseApp with
    ocr_raw_text := "Milch 2,49\nx1\nfoo 1,23\n".data
    ocr_blacklist := ["foo".data] }

/-- C4 witness: the classifier theorem applied at a concrete raw text
and blacklist, at the surviving line "Milch 2,49". -/
theorem C4_classifier_survivors_witness :
    "Milch 2,49".data ∈ classifierLines c4app.ocr_raw_text c4app.ocr_blacklist ∧
    ("Milch 2,49".data.any isDelimChar = true ∧
      ((splitOnChar ' ' "Milch 2,49".data).getLastD []).any isDigitChar = true ∧
      ∀ b ∈ c4app.ocr_blacklist, strContains "Milch 2,49".data b = false) := by
  have h := (C4_classifier_survivors c4app).2.2 "Milch 2,49".data (by decide)
  exact ⟨by decide, h⟩

/-! Claim C5. -/

/-- `minByKey?` never returns `none` on a non-empty list. -/
theorem minByKey?_eq_none {α : Type} (f : α → Nat) (l : List α) :
    minByKey? f l = none ↔ l = [] := by
  cases l with
  | nil => simp [minByKey?]
  | cons x xs =>
    simp only [minByKey?]
    cases minByKey? f xs with
    | none => simp
    | some y =>
      constructor
      · intro h
        by_cases hle : f x ≤ f y <;> simp [hle] at h
      · intro h
        exact absurd h (List.cons_ne_nil x xs)

/-- The element `minByKey?` returns belongs to the list and attains the
minimum key. -/
theorem minByKey?_mem_le {α : Type} (f : α → Nat) (l : List α) (p : α)
    (h : minByKey? f l = some p) : p ∈ l ∧ ∀ q ∈ l, f p ≤ f q := by
  induction l generalizing p with
  | nil => simp [minByKey?] at h
  | cons x xs ih =>
    simp only [minByKey?] at h
    cases hxs : minByKey? f xs with
    | none =>
      rw [hxs] at h
      have h' : some x = some p := h
      injection h' with h'
      subst h'
      have hnil : xs = [] := (minByKey?_eq_none f xs).mp hxs
      subst hnil
      refine ⟨List.mem_singleton_self _, ?_⟩
      intro q hq
      have hq' := List.mem_singleton.mp hq
      subst hq'
      exact le_refl _
    | some y =>
      rw [hxs] at h
      have h' : (if f x ≤ f y then some x else some y) = some p := h
      have hy := ih y hxs
      by_cases hle : f x ≤ f y
      · rw [if_pos hle] at h'
        injection h' with h'
        subst h'
        refine ⟨List.mem_cons_self _ xs, ?_⟩
        intro q hq
        rcases List.mem_cons.mp hq with hq | hq
        · rw [hq]
        · exact le_trans hle (hy.2 q hq)
      · rw [if_neg hle] at h'
        injection h' with h'
        subst h'
        refine ⟨List.mem_cons_of_mem x hy.1, ?_⟩
        intro q hq
        rcases List.mem_cons.mp hq with hq | hq
        · rw [hq]; exact le_of_lt (Nat.lt_of_not_le hle)
        · exact hy.2 q hq

/-- C5: the product matcher selects the catalog entry at minimum
Damerau-Levenshtein distance (the first such entry); below threshold 4
the draft takes the catalog entry's canonical name and the name of the
category with its category id (empty when no category matches, by
`categoryNameFor`); on an empty catalog or at distance at least 4 it
keeps the raw extracted name and an empty category. -/
theorem C5_product_matcher (products : List Product) (categories : List Category)
    (name : Str) :
    (products = [] → matchProduct products categories name = ([], name)) ∧
    ∀ p, minByKey? (fun e => damerau_levenshtein name e.product) products = some p →
      (p ∈ products ∧ ∀ q ∈ products,
        damerau_levenshtein name p.product ≤ damerau_levenshtein name q.product) ∧
      (damerau_levenshtein name p.product < 4 →
        matchProduct products categories name =
          (((categories.find? fun c => c.category_id == p.category_id).map
            Category.category).getD [], p.product)) ∧
      (4 ≤ damerau_levenshtein name p.product →
        matchProduct products categories name = ([], name)) := by
  constructor
  · intro h
    subst h
    rfl
  · intro p hp
    refine ⟨minByKey?_mem_le _ _ _ hp, ?_, ?_⟩
    · intro hlt
      unfold matchProduct
      rw [hp]
      simp [hlt, categoryNameFor]
    · intro hge
      unfold matchProduct
      rw [hp]
      simp [Nat.not_lt.mpr hge]

/-- C5 witness: the matcher theorem applied at the one-product catalog
containing "Butter" and the query "Buter" (distance 1 < 4). -/
theorem C5_product_matcher_witness :
    matchProduct [⟨1, 1, "Butter".data⟩] [⟨1, "food".data⟩] "Buter".data =
      ("food".data, "Butter".data) := by
  have h := (C5_product_matcher [⟨1, 1, "Butter".data⟩] [⟨1, "food".data⟩]
    "Buter".data).2 ⟨1, 1, "Butter".data⟩ (by decide)
  exact (h.2.1 (by decide)).trans (by decide)

/-! Claim C6. -/

/-- The draft-summary invariant: the computed price is the sum of the
draft item prices, and the reconciliation flag is their tolerant
comparison against the reported price. -/
def summaryInv (app : App) : Prop :=
  app.new_bon_list.price_calc = (app.new_bon_list.items.map Entry.price).sum ∧
  app.new_bon_list.price_eq =
    approx_eq app.new_bon_list.price_ocr app.new_bon_list.price_calc

/-- Handling CalculateSummary in ConvertBon or EditPrice establishes the
summary invariant. -/
theorem calculate_summary_inv (app : App)
    (h : app.current_state = AppState.ConvertBon ∨
      app.current_state = AppState.EditPrice) :
    summaryInv (App.calculate_summary app) := by
  have hnh : ¬ app.current_state = AppState.Home := by
    rcases h with h | h <;> rw [h] <;> intro hc <;> exact AppState.noConfusion hc
  unfold App.calculate_summary
  rw [if_neg hnh, if_pos h]
  exact ⟨rfl, rfl⟩

/-- One dequeue step of the event loop. -/
theorem processAll_cons (n : Nat) (app : App) (e : AppEvent)
    (rest : List AppEvent) (h : app.events = e :: rest) :
    App.processAll (n + 1) app =
      App.processAll n (App.handleEvent { app with events := rest } e) := by
  conv_lhs => rw [App.processAll]
  rw [h]

/-- Processing a queued GoConvertBonState then CalculateSummary always
establishes the summary invariant. -/
theorem process_go_calc (app : App)
    (h : app.events = [AppEvent.GoConvertBonState, AppEvent.CalculateSummary]) :
    summaryInv (App.processAll 2 app) := by
  rw [processAll_cons 1 app _ _ h]
  rw [processAll_cons 0 _ _ _ rfl]
  exact calculate_summary_inv _ (Or.inl rfl)

/-- Processing a queued CalculateSummary from ConvertBon or EditPrice
establishes the summary invariant. -/
theorem process_calc (app : App)
    (hev : app.events = [AppEvent.CalculateSummary])
    (hst : app.current_state = AppState.ConvertBon ∨
      app.current_state = AppState.EditPrice) :
    summaryInv (App.processAll 1 app) := by
  rw [processAll_cons 0 app _ _ hev]
  exact calculate_summary_inv _ hst

/-- C6: after each draft-mutating operation — conversion, item deletion
in ConvertBon, a committed price edit, a committed bon-price edit — once
the queued recomputation event has been handled, the computed price
equals the sum of the draft item prices and the reconciliation flag
equals the tolerant comparison of the reported price against it. -/
theorem C6_summary_recomputed (app : App) (h : app.events = []) :
    summaryInv (App.processAll 2 (App.convert_to_bon app)) ∧
    (app.current_state = AppState.ConvertBon →
      summaryInv (App.processAll 1 (App.handle_key_events app (KeyEvent.char 'x')))) ∧
    (app.current_state = AppState.EditPrice →
      summaryInv (App.processAll 2 (App.handle_key_events app KeyEvent.enter))) ∧
    (app.current_state = AppState.EditBonPrice →
      summaryInv (App.processAll 2 (App.handle_key_events app KeyEvent.enter))) := by
  refine ⟨?_, ?_, ?_, ?_⟩
  · apply process_go_calc
    simp [App.convert_to_bon, App.send, h]
  · intro hc
    apply process_calc
    · cases hsel : app.new_bon_list.state with
      | none =>
        unfold App.handle_key_events
        simp [hc, hsel, App.send, h]
      | some i =>
        unfold App.handle_key_events
        simp [hc, hsel, App.send, h]
    · cases hsel : app.new_bon_list.state with
      | none =>
        unfold App.handle_key_events
        simp [hc, hsel, App.send]
      | some i =>
        unfold App.handle_key_events
        simp [hc, hsel, App.send]
  · intro hc
    apply process_go_calc
    cases hsel : app.new_bon_list.state with
    | none =>
      unfold App.handle_key_events
      simp [hc, hsel, App.send, h]
    | some i =>
      cases hget : app.new_bon_list.items[i]? with
      | none =>
        unfold App.handle_key_events
        simp [hc, hsel, hget, App.send, h]
      | some entry =>
        unfold App.handle_key_events
        simp [hc, hsel, hget, App.send, h]
  · intro hc
    apply process_go_calc
    unfold App.handle_key_events
    simp [hc, App.send, h]

/-- C6 witness: the invariant theorem applied at a concrete ConvertBon
session, for the conversion and for the item deletion. -/
theorem C6_summary_recomputed_witness :
    c6w.events = [] ∧
    summaryInv (App.processAll 2 (App.convert_to_bon c6w)) ∧
    summaryInv (App.processAll 1 (App.handle_key_events c6w (KeyEvent.char 'x'))) := by
  have hw := C6_summary_recomputed c6w rfl
  exact ⟨rfl, hw.1, hw.2.1 rfl⟩

/-! Claim C7. -/

/-- `convertStep` neither reads nor writes the draft's selection or
reconciliation flag. -/
theorem convertStep_set (db : Database) (e : OcrEntry) (nb : NewBonList)
    (s : Option Nat) (b : Bool) :
    convertStep db { nb with state := s, price_eq := b } e =
      { convertStep db nb e with state := s, price_eq := b } := by
  rcases e with ⟨name, ty⟩
  cases ty with
  | Date => cases h : extract_date name <;> simp [convertStep, h]
  | Entry =>
    cases h1 : extract_name name with
    | none => simp [convertStep, h1]
    | some nm => cases h2 : extract_price name <;> simp [convertStep, h1, h2]
  | Sum => cases h : extract_price name <;> simp [convertStep, h]

/-- The conversion fold commutes with presetting the selection and the
reconciliation flag. -/
theorem foldl_convertStep_set (db : Database) (l : List OcrEntry)
    (nb : NewBonList) (s : Option Nat) (b : Bool) :
    l.foldl (convertStep db) { nb with state := s, price_eq := b } =
      { l.foldl (convertStep db) nb with state := s, price_eq := b } := by
  induction l generalizing nb with
  | nil => rfl
  | cons e t ih => rw [List.foldl_cons, List.foldl_cons, convertStep_set, ih]

/-- The draft produced by conversion followed by the queued summary
recomputation, as a function of the database snapshot, the OCR lines,
and the two draft fields the conversion does not reset (selection and
reconciliation flag). -/
def mkConvertedNb (db : Database) (lines : List OcrEntry) (s : Option Nat)
    (b : Bool) : NewBonList :=
  let G := lines.foldl (convertStep db) ⟨[], [], 0, b, 0, s⟩
  let G2 := if G.items.isEmpty then G else { G with state := some 0 }
  let pc := (G2.items.map Entry.price).sum
  { G2 with price_calc := pc, price_eq := approx_eq G2.price_ocr pc }

/-- Processing a GoConvertBonState/CalculateSummary queue is entering
ConvertBon and recomputing the summary. -/
theorem processAll_two_go_calc (app : App)
    (h : app.events = [AppEvent.GoConvertBonState, AppEvent.CalculateSummary]) :
    App.processAll 2 app =
      App.calculate_summary
        { app with current_state := AppState.ConvertBon, events := [] } := by
  rw [processAll_cons 1 _ _ _ h, processAll_cons 0 _ _ _ rfl]
  rfl

/-- Conversion followed by its queued events, in closed form. -/
theorem convertProcess_formula (app : App) (h : app.events = []) :
    App.processAll 2 (App.convert_to_bon app) =
      { app with
        current_state := AppState.ConvertBon
        events := []
        new_bon_list := mkConvertedNb app.database app.ocr_list.items
          app.new_bon_list.state app.new_bon_list.price_eq } := by
  rw [processAll_two_go_calc _ (by simp [App.convert_to_bon, App.send, h])]
  rfl

/-- The converted draft in explicit form: only its selection field
depends on the pre-conversion selection, and only when no item was
produced. -/
theorem mkConvertedNb_explicit (db : Database) (L : List OcrEntry)
    (s : Option Nat) (b : Bool) :
    mkConvertedNb db L s b =
      (let G0 := L.foldl (convertStep db) ⟨[], [], 0, false, 0, none⟩
       let pc := (G0.items.map Entry.price).sum
       ⟨G0.date, G0.items, pc, approx_eq G0.price_ocr pc, G0.price_ocr,
         if G0.items.isEmpty then s else some 0⟩) := by
  unfold mkConvertedNb
  rw [show (⟨[], [], 0, b, 0, s⟩ : NewBonList) =
      { (⟨[], [], 0, false, 0, none⟩ : NewBonList) with
        state := s, price_eq := b } from rfl,
    foldl_convertStep_set]
  by_cases hemp :
      (L.foldl (convertStep db) ⟨[], [], 0, false, 0, none⟩).items.isEmpty =
        true <;>
    simp [hemp]

/-- The converted draft depends on the pre-conversion selection and
reconciliation flag only where the conversion leaves them untouched, so
re-running the conversion pipeline reproduces it. -/
theorem mkConvertedNb_idem (db : Database) (L : List OcrEntry) (s : Option Nat)
    (b : Bool) :
    mkConvertedNb db L (mkConvertedNb db L s b).state
      (mkConvertedNb db L s b).price_eq = mkConvertedNb db L s b := by
  rw [mkConvertedNb_explicit db L s b]
  rw [mkConvertedNb_explicit]
  by_cases hemp :
      (L.foldl (convertStep db) ⟨[], [], 0, false, 0, none⟩).items.isEmpty =
        true <;>
    simp [hemp]

/-- C7: draft conversion is idempotent — converting, processing the
queued events, and converting again yields the same draft (date, item
list, reported and computed prices, reconciliation flag, selection) as
converting once, for any OCR line list and database snapshot. -/
theorem C7_convert_idempotent (app : App) (h : app.events = []) :
    (App.processAll 2 (App.convert_to_bon
      (App.processAll 2 (App.convert_to_bon app)))).new_bon_list =
      (App.processAll 2 (App.convert_to_bon app)).new_bon_list := by
  rw [convertProcess_formula app h]
  rw [convertProcess_formula _ rfl]
  exact mkConvertedNb_idem app.database app.ocr_list.items
    app.new_bon_list.state app.new_bon_list.price_eq

/-- A tagged OCR review for the idempotence witness. -/
def c7app : App :=
  { baseApp with
    current_state := .OCR
    ocr_list := ⟨[⟨"Milch 2,49".data, .Entry⟩, ⟨"SUMME 5,59".data, .Sum⟩,
      ⟨"24.12.2024 Bon".data, .Date⟩], some 0⟩ }

/-- C7 witness: the idempotence theorem applied at a concrete tagged
review. -/
theorem C7_convert_idempotent_witness :
    (App.processAll 2 (App.convert_to_bon
      (App.processAll 2 (App.convert_to_bon c7app)))).new_bon_list =
      (App.processAll 2 (App.convert_to_bon c7app)).new_bon_list :=
  C7_convert_idempotent c7app rfl

/-! Claim C10. -/

/-- C10: the claim says NextItem is a bounded no-op that never fails at
either end of the active list.  With an empty item list and a stale
selection Some 0 (reachable by deleting the last item), the guard
`i < items.len() - 1` underflows (0 - 1 wraps to 2^64 - 1 in a release
build; a debug build panics), so NextItem advances the selection to
Some 1 instead of being a no-op.  This contradicts the claim. -/
theorem C10_next_item_empty_list_advances :
    c10app.new_bon_list.items = [] ∧
    c10app.new_bon_list.state = some 0 ∧
    (App.next_item c10app).new_bon_list.state = some 1 := by
  decide

end BonScanner
